import Mathlib

/-!
Shallow embedding of the `stage-inspector` debugging tool
(`src/index.js`, class `StageInspector`) together with proofs about the
behaviour its specification claims.

Modelling conventions, used throughout:

* A CreateJS display object is modelled by `DNode`: its `id` field (an
  integer, unique per process run), its optional `name` string, the
  behaviour of its `getBounds()` accessor (`boundsF`: a rectangle, `null`,
  or a thrown fault), the optional `frameBounds`/`currentFrame` pair used
  by the MovieClip compensation in `_addObjectToContainer`, the remaining
  own enumerable fields (`fields`, as iterated by `Object.keys`), and the
  optional `children` array (`none` models a display object with no
  `children` field at all, such as a `Shape`).
* JavaScript object identity (`==`/`===` between two object references) is
  modelled by equality of `id` fields; CreateJS assigns every display
  object a distinct `UID`, so within one stage tree id-equality coincides
  with reference equality.  Theorems whose force depends on this carry an
  explicit id-distinctness hypothesis.
* Numeric field values are modelled as integers (`Int`); screen-space
  geometry (`localToGlobal`, text measurement, colors of individual
  primitives) consists of rendering attributes that no claim quantifies
  over, so synthesized annotation primitives are modelled by their kind,
  owning object and (for the info panel) their text lines.
* Code that can throw a `TypeError` (a property access on `null`) is
  modelled in the `Except JsFault` monad; code whose exceptions are caught
  and suppressed by the source (the `try`/`catch` around `getBounds()`) is
  modelled as total.
-/

namespace StageInspector

/-- A bounds rectangle as returned by `getBounds()` (CreateJS `Rectangle`). -/
structure Rect where
  x : Int
  y : Int
  width : Int
  height : Int
  deriving DecidableEq, Repr

/-- Behaviour of a display object's `getBounds()` accessor: it returns a
rectangle or `null` (`ret`), or it throws (`fault`).  The source treats a
thrown fault like an absent value wherever it calls `getBounds` inside
`try`/`catch` (index.js lines 349-353 and 475-486). -/
inductive GetBoundsResult : Type where
  | ret (b : Option Rect)
  | fault
  deriving DecidableEq, Repr

/-- A JavaScript field value, at the granularity the inspector observes:
the `_displayMember` loop only distinguishes numbers (formatting), objects
(excluded by `instanceof Object`, line 542) and everything else
(stringified).  Numbers are modelled as integers. -/
inductive JsVal : Type where
  | num (i : Int)
  | str (s : String)
  | boolVal (b : Bool)
  | undefVal
  | objVal
  deriving DecidableEq, Repr

/-- A display object in the stage tree (see module docstring for the
correspondence with CreateJS objects). -/
inductive DNode : Type where
  | mk (id : Int) (name : Option String) (boundsF : GetBoundsResult)
      (frameBounds : Option (List Rect)) (currentFrame : Option Int)
      (fields : List (String × JsVal)) (children : Option (List DNode))

/-- The display object's `id` field. -/
def DNode.id : DNode → Int
  | .mk i _ _ _ _ _ _ => i

/-- The display object's `name` field (`none` models `undefined`/unset). -/
def DNode.name : DNode → Option String
  | .mk _ nm _ _ _ _ _ => nm

/-- Behaviour of the object's `getBounds()` accessor. -/
def DNode.boundsF : DNode → GetBoundsResult
  | .mk _ _ bf _ _ _ _ => bf

/-- The object's `frameBounds` array, if it has one (MovieClips). -/
def DNode.frameBounds : DNode → Option (List Rect)
  | .mk _ _ _ fb _ _ _ => fb

/-- The object's `currentFrame` field when it is an integer number
(`Number.isInteger` is false for `undefined` and non-integral numbers,
which are both modelled as `none`). -/
def DNode.currentFrame : DNode → Option Int
  | .mk _ _ _ _ cf _ _ => cf

/-- The object's remaining own enumerable fields, in `Object.keys` order. -/
def DNode.fields : DNode → List (String × JsVal)
  | .mk _ _ _ _ _ fl _ => fl

/-- The object's `children` array; `none` models an object with no
`children` field (a leaf display object). -/
def DNode.children : DNode → Option (List DNode)
  | .mk _ _ _ _ _ _ ch => ch

/-- The object's children as a plain list (an absent `children` field
behaves like an empty array for every traversal in the source). -/
def DNode.childrenList (n : DNode) : List DNode :=
  n.children.getD []

/-! ## Filter matching (`_checkFilters`, index.js 437-454) -/

/-- One entry of the filter array passed to `show`/`dump`.  The source
dispatches on the entry's dynamic type: `_isNumber` (line 442), `_isString`
(line 445), otherwise an object reference (line 449). -/
inductive FilterEntry : Type where
  | num (i : Int)
  | str (s : String)
  | node (n : DNode)

/-- Whether one filter entry matches a display object: `obj.id === filter`
for a number, `obj.name === filter` for a string, `obj === filter`
(reference identity, modelled by id equality) otherwise. -/
def matchEntry (n : DNode) : FilterEntry → Bool
  | .num i => n.id == i
  | .str s => n.name == some s
  | .node m => n.id == m.id

/-- Embedding of `_checkFilters` (index.js 440-451): scan the filter entries in order,
stopping at the first match (the loop condition is `i < length && !back`). -/
def checkFilters (filters : List FilterEntry) (n : DNode) : Bool :=
  match filters with
  | [] => false
  | f :: rest => if matchEntry n f then true else checkFilters rest n

/-- The inclusion test of `_addObjectToContainer` line 472:
`!this._filters || this._checkFilters(obj)`.  An absent (`null`) filter
array selects everything; note an empty array is truthy in JavaScript and
therefore selects nothing. -/
def includeNode (filters : Option (List FilterEntry)) (n : DNode) : Bool :=
  match filters with
  | none => true
  | some fs => checkFilters fs n

/-! ## Nest color lookup (`_getNestColor`, index.js 319-326) -/

/-- JavaScript array indexing: out-of-range and negative indices yield
`undefined`. -/
def jsIndex (l : List String) (i : Int) : Option String :=
  if i < 0 then none else l[i.toNat]?

/-- Embedding of `_getNestColor` (index.js 319-326): clamp the nesting level into the `nestColors` table.
The comparison and the `length - 1` arithmetic are performed on integers as
in the source. -/
def getNestColor (colors : List String) (nestLevel : Nat) : Option String :=
  if (nestLevel : Int) > (colors.length : Int) - 1 then
    jsIndex colors ((colors.length : Int) - 1)
  else
    jsIndex colors (nestLevel : Int)

/-! ## Tree search (`_searchForObject` / `_searchForObjects`, index.js 392-429) -/

/-- Embedding of `_searchForObject` (index.js 392-406): if the predicate holds of the
node itself return it; otherwise scan the children in order and return the
first hit (`for (...; i < obj.children.length && !back; ...)`). -/
def searchForObject (f : DNode → Bool) (n : DNode) : Option DNode :=
  if f n then some n
  else n.childrenList.attach.findSome? (fun c => searchForObject f c.1)
termination_by sizeOf n
decreasing_by
  obtain ⟨c, hc⟩ := c
  obtain ⟨i, nm, bf, fb, cf, fl, ch⟩ := n
  cases ch with
  | none => simp [DNode.childrenList, DNode.children] at hc
  | some cs =>
    simp only [DNode.childrenList, DNode.children, Option.getD_some] at hc
    have := List.sizeOf_lt_of_mem hc
    simp only [DNode.mk.sizeOf_spec, Option.some.sizeOf_spec]
    omega

/-- Embedding of `_searchForObjects` (index.js 415-429): if the predicate holds of the
node itself the result is just that node (the `else if` means the children
of a matching node are not visited); otherwise concatenate the results for
the children in order. -/
def searchForObjects (f : DNode → Bool) (n : DNode) : List DNode :=
  if f n then [n]
  else n.childrenList.attach.flatMap (fun c => searchForObjects f c.1)
termination_by sizeOf n
decreasing_by
  obtain ⟨c, hc⟩ := c
  obtain ⟨i, nm, bf, fb, cf, fl, ch⟩ := n
  cases ch with
  | none => simp [DNode.childrenList, DNode.children] at hc
  | some cs =>
    simp only [DNode.childrenList, DNode.children, Option.getD_some] at hc
    have := List.sizeOf_lt_of_mem hc
    simp only [DNode.mk.sizeOf_spec, Option.some.sizeOf_spec]
    omega

/-- Depth-first pre-order enumeration of a stage tree (self before
children, children in array order).  Used to state search/order claims. -/
def preorder (n : DNode) : List DNode :=
  n :: n.childrenList.attach.flatMap (fun c => preorder c.1)
termination_by sizeOf n
decreasing_by
  obtain ⟨c, hc⟩ := c
  obtain ⟨i, nm, bf, fb, cf, fl, ch⟩ := n
  cases ch with
  | none => simp [DNode.childrenList, DNode.children] at hc
  | some cs =>
    simp only [DNode.childrenList, DNode.children, Option.getD_some] at hc
    have := List.sizeOf_lt_of_mem hc
    simp only [DNode.mk.sizeOf_spec, Option.some.sizeOf_spec]
    omega

/-- The ids of all nodes of a tree, in pre-order. -/
def treeIds (n : DNode) : List Int :=
  (preorder n).map DNode.id

/-- The `name` fields of all nodes of a tree, in pre-order. -/
def treeNames (n : DNode) : List (Option String) :=
  (preorder n).map DNode.name

/-- Predicate: `x` is a node of the tree rooted at `t` (the root included). -/
inductive Occurs : DNode → DNode → Prop where
  | refl (t : DNode) : Occurs t t
  | child {x c t : DNode} : c ∈ t.childrenList → Occurs x c → Occurs x t

/-- JavaScript `String.prototype.toLowerCase()`, modelled character-wise
(ASCII case folding suffices for the strings the source compares). -/
def jsToLowerCase (s : String) : String :=
  String.mk (s.data.map Char.toLower)

/-- Embedding of `getObjectByName` (index.js 202-215): the string `"stage"` (compared
case-insensitively) short-circuits to the stage itself; any other string is
searched for by exact `name` match, self-then-children. -/
def getObjectByName (st : DNode) (s : String) : Option DNode :=
  if jsToLowerCase s == "stage" then some st
  else searchForObject (fun o => o.name == some s) st

/-- Embedding of `getObjectById` (index.js 223-227). -/
def getObjectById (st : DNode) (i : Int) : Option DNode :=
  searchForObject (fun o => o.id == i) st

/-- Embedding of `getObjectsByCustomSearch` (index.js 235-237). -/
def getObjectsByCustomSearch (st : DNode) (f : DNode → Bool) : List DNode :=
  searchForObjects f st

/-! ## Bounds resolution for the overlay (`_addObjectToContainer`, index.js 474-489) -/

/-- The plain `try { bounds = obj.getBounds() } catch { }` pattern: a
thrown fault leaves `bounds` undefined, i.e. `none`. -/
def tryGetBounds (n : DNode) : Option Rect :=
  match n.boundsF with
  | .ret b => b
  | .fault => none

/-- The bounds computation of `_addObjectToContainer` (index.js 474-486):
if the object has a non-empty `frameBounds` array and an integer
`currentFrame` that ran one past its end, substitute the last `frameBounds`
entry (the MovieClip off-by-one compensation); otherwise call `getBounds`,
suppressing any fault. -/
def resolveBounds (n : DNode) : Option Rect :=
  match n.frameBounds, n.currentFrame with
  | some fbs, some cf =>
      if 0 < fbs.length ∧ (fbs.length : Int) ≤ cf then fbs[fbs.length - 1]?
      else tryGetBounds n
  | _, _ => tryGetBounds n

/-! ## Info panel contents (`_addObjectToContainer` 525-546, `_displayMember` 737-748) -/

/-- String conversion of a field value as performed by
`'' + val`-style concatenation in `_displayMember` and `_dumpObject`. -/
def jsValToString : JsVal → String
  | .num i => toString i
  | .str s => s
  | .boolVal b => if b then "true" else "false"
  | .undefVal => "undefined"
  | .objVal => "[object Object]"

/-- A JavaScript property read `obj[key]`.  The `id` and `name` fields are
carried separately by the model; all other own fields are looked up in
`fields`, an absent key reading as `undefined`. -/
def DNode.getField (n : DNode) (key : String) : JsVal :=
  if key = "id" then .num n.id
  else if key = "name" then
    match n.name with
    | some s => .str s
    | none => .undefVal
  else (n.fields.lookup key).getD .undefVal

/-- The text of the info line created by `_displayMember` (index.js
737-748): `member + ': ' + val`.  Numbers are modelled as integers, so the
`toFixed(3)` branch for non-integral numbers (line 739-741) is never
taken. -/
def displayMemberLine (n : DNode) (member : String) : String :=
  member ++ ": " ++ jsValToString (n.getField member)

/-- The `key.indexOf('_') != 0` test of index.js line 541, i.e. whether
the key's first character is an underscore. -/
def startsWithUnderscore (s : String) : Bool :=
  s.data.head? == some '_'

/-- The info-panel lines of one display object, in the order the source
appends them (index.js 525-546): the `id` member if enabled, then the
`name` member if enabled, then the `Parent ID` line if enabled, then every
remaining own enumerable field that does not start with `_`, is not in
`specialKeys = ['id', 'name']`, is enabled in the property filter set, and
whose value is not an `Object`. -/
def infoLines (props : String → Bool) (parentId : Int) (n : DNode) : List String :=
  (if props "id" then [displayMemberLine n "id"] else [])
  ++ (if props "name" then [displayMemberLine n "name"] else [])
  ++ (if props "parentId" then ["Parent ID: " ++ toString parentId] else [])
  ++ n.fields.filterMap (fun kv =>
      if !startsWithUnderscore kv.1 && kv.1 != "id" && kv.1 != "name"
          && props kv.1 && kv.2 != JsVal.objVal
      then some (displayMemberLine n kv.1) else none)

/-! ## Annotation primitives (`_addObjectToContainer` 490-551) -/

/-- One top-level display object appended to the overlay container for an
inspected node, identified by its kind and the id of the node it annotates
(the source names each primitive `si_<kind>_<id>`).  Screen positions,
colors and text metrics are rendering attributes outside the scope of the
claims and are not recorded. -/
inductive Annot : Type where
  | boundsRect (owner : Int)
  | boundsPosText (owner : Int)
  | posMarker (owner : Int)
  | posText (owner : Int)
  | regPosMarker (owner : Int)
  | regPosText (owner : Int)
  | widthText (owner : Int)
  | heightText (owner : Int)
  | infoPanel (owner : Int) (lines : List String)
  deriving DecidableEq, Repr

/-- The id of the node an annotation primitive belongs to. -/
def Annot.owner : Annot → Int
  | .boundsRect i => i
  | .boundsPosText i => i
  | .posMarker i => i
  | .posText i => i
  | .regPosMarker i => i
  | .regPosText i => i
  | .widthText i => i
  | .heightText i => i
  | .infoPanel i _ => i

/-- The annotation primitives synthesized for a single included node with
defined bounds (index.js 490-551), in the order of the `addChild` calls:
bounds rectangle and its origin label (`_displayBounds`), position marker
and label (`_displayPos`), registration marker and label
(`_displayRegPos`), width label, height label, and finally the info panel,
which is only added when at least one line accumulated (`nextY > 0`; every
rendered line advances `nextY` by its positive measured line height). -/
def ownAnnots (props : String → Bool) (parentId : Int) (n : DNode) : List Annot :=
  (if props "bounds" then [.boundsRect n.id, .boundsPosText n.id] else [])
  ++ (if props "pos" then [.posMarker n.id, .posText n.id] else [])
  ++ (if props "regPos" then [.regPosMarker n.id, .regPosText n.id] else [])
  ++ (if props "width" then [.widthText n.id] else [])
  ++ (if props "height" then [.heightText n.id] else [])
  ++ (if (infoLines props parentId n).isEmpty then []
      else [.infoPanel n.id (infoLines props parentId n)])

/-- The primitives one node itself contributes to the overlay
(`_addObjectToContainer` 472-489): nothing when it fails the filter check;
nothing when its resolved bounds are undefined (the early `return` at line
487-489); its synthesized annotations otherwise. -/
def selfAnnots (props : String → Bool) (filters : Option (List FilterEntry))
    (parentId : Int) (n : DNode) : List Annot :=
  if includeNode filters n then
    match resolveBounds n with
    | some _b => ownAnnots props parentId n
    | none => []
  else []

/-- Embedding of `_addObjectToContainer` (index.js 463-554): recurse into the children
first ("do child objects first so that their display is behind their
parent"), then append the node's own contribution; when the bounds are
undefined the early `return` (line 487-489) skips only the node's own
primitives — its children were already processed.  The `nestLevel` argument
only selects the nest color, a rendering attribute not recorded on the
primitives. -/
def addObjectToContainer (props : String → Bool)
    (filters : Option (List FilterEntry)) (parentId : Int) (n : DNode)
    (nestLevel : Nat) : List Annot :=
  n.childrenList.attach.flatMap
    (fun c => addObjectToContainer props filters n.id c.1 (nestLevel + 1))
  ++ selfAnnots props filters parentId n
termination_by sizeOf n
decreasing_by
  obtain ⟨c, hc⟩ := c
  obtain ⟨i, nm, bf, fb, cf, fl, ch⟩ := n
  cases ch with
  | none => simp [DNode.childrenList, DNode.children] at hc
  | some cs =>
    simp only [DNode.childrenList, DNode.children, Option.getD_some] at hc
    have := List.sizeOf_lt_of_mem hc
    simp only [DNode.mk.sizeOf_spec, Option.some.sizeOf_spec]
    omega

/-- Embedding of `_updateDisplay` (index.js 263-270): empty the overlay container, then
process every stage child except the overlay container itself
(`child != this._container`, an identity comparison modelled by comparing
against the container's id `cid`).  The result is the overlay container's
new contents. -/
def updateDisplay (props : String → Bool)
    (filters : Option (List FilterEntry)) (cid : Int) (st : DNode) :
    List Annot :=
  st.childrenList.flatMap
    (fun c => if c.id == cid then [] else addObjectToContainer props filters st.id c 0)

/-! ## Console dump (`dump` 138-158, `_dumpObject` 335-383) -/

/-- A fault escaping to the caller: the only one the dump path can raise is
a `TypeError` from a property access on `null`. -/
inductive JsFault : Type where
  | typeError
  deriving DecidableEq, Repr

/-- One console call made while dumping. -/
inductive ConsoleEntry : Type where
  | group (label : String)
  | groupCollapsed (label : String)
  | groupEnd
  | logRef (objId : Int)
  | logLine (s : String)
  deriving DecidableEq, Repr

/-- CreateJS `Rectangle.toString()`. -/
def rectToString (r : Rect) : String :=
  "[Rectangle (x=" ++ toString r.x ++ " y=" ++ toString r.y ++ " width="
    ++ toString r.width ++ " height=" ++ toString r.height ++ ")]"

/-- The value printed by the `bounds:` line of `_dumpObject` (index.js
348-359): `getBounds()` inside `try`/`catch`, so a fault leaves the local
`bounds` variable `undefined`, a `null` return prints as `null`, and a
rectangle prints via its `toString`. -/
def boundsDumpString (n : DNode) : String :=
  match n.boundsF with
  | .fault => "undefined"
  | .ret none => "null"
  | .ret (some r) => rectToString r

/-- The fixed property lines of one `_dumpObject` report (index.js
355-369), after the `ref:` line and before the children section. -/
def dumpFieldLines (o : DNode) : List ConsoleEntry :=
  [ .logLine ("visible:         " ++ jsValToString (o.getField "visible")),
    .logLine ("alpha:           " ++ jsValToString (o.getField "alpha")),
    .logLine ("x:               " ++ jsValToString (o.getField "x")),
    .logLine ("y:               " ++ jsValToString (o.getField "y")),
    .logLine ("bounds:          " ++ boundsDumpString o),
    .logLine ("regX:            " ++ jsValToString (o.getField "regX")),
    .logLine ("regY:            " ++ jsValToString (o.getField "regY")),
    .logLine ("scaleX:          " ++ jsValToString (o.getField "scaleX")),
    .logLine ("scaleY:          " ++ jsValToString (o.getField "scaleY")),
    .logLine ("rotation:        " ++ jsValToString (o.getField "rotation")),
    .logLine ("transformMatrix: " ++ jsValToString (o.getField "transformMatrix")),
    .logLine ("mouseChildren:   " ++ jsValToString (o.getField "mouseChildren")),
    .logLine ("mouseEnabled:    " ++ jsValToString (o.getField "mouseEnabled")),
    .logLine ("cachedStatus:    " ++ jsValToString (o.getField "cacheID")),
    .logLine ("filters:         " ++ jsValToString (o.getField "filters")) ]

/-- The label built by `_getObjectDisplayName` (index.js 298-311) for a
non-null display object.  The host `toString()` of a display object renders
as `[<Class> (name=<name>)]`; the class tag is host-supplied and not part
of the model, so a single uniform tag is used.  The ` (id=..)` suffix of
line 308 is appended faithfully. -/
def objLabel (o : DNode) : String :=
  "[DisplayObject (name=" ++ jsValToString (o.getField "name") ++ ")]"
    ++ " (id=" ++ toString o.id ++ ")"

/-- Embedding of `_getObjectDisplayName` applied to the result of a lookup: on a null
argument, `obj.toString()` (line 305) is a property access on `null` and
throws a `TypeError`. -/
def getObjectDisplayName : Option DNode → Except JsFault String
  | none => .error .typeError
  | some o => .ok (objLabel o)

/-- Embedding of `_dumpObject` (index.js 335-383): nothing is emitted for the overlay
container itself (`if (this._container == obj) return`, an identity
comparison modelled by the container id `cid`); otherwise one
expanded/collapsed group: the label, the `ref:` line, the fixed field
lines, then either a `Children:` group with a collapsed recursive report
per child or the `Children: None` line. -/
def dumpObject (cid : Int) (o : DNode) (label : String) (expand : Bool) :
    List ConsoleEntry :=
  if o.id == cid then []
  else
    (if expand then [ConsoleEntry.group label]
     else [ConsoleEntry.groupCollapsed label])
    ++ [ConsoleEntry.logRef o.id]
    ++ dumpFieldLines o
    ++ (if o.children.isSome then
          ConsoleEntry.group "Children:"
            :: o.childrenList.attach.flatMap
                (fun c => dumpObject cid c.1 (objLabel c.1) false)
            ++ [ConsoleEntry.groupEnd]
        else [ConsoleEntry.logLine "Children: None"])
    ++ [ConsoleEntry.groupEnd]
termination_by sizeOf o
decreasing_by
  obtain ⟨c, hc⟩ := c
  obtain ⟨i, nm, bf, fb, cf, fl, ch⟩ := o
  cases ch with
  | none => simp [DNode.childrenList, DNode.children] at hc
  | some cs =>
    simp only [DNode.childrenList, DNode.children, Option.getD_some] at hc
    have := List.sizeOf_lt_of_mem hc
    simp only [DNode.mk.sizeOf_spec, Option.some.sizeOf_spec]
    omega

/-- Resolution of one `dump` filter entry (index.js 141-147): strings are
looked up by name, numbers by id, and any other entry is used as-is. -/
def resolveDumpEntry (st : DNode) : FilterEntry → Option DNode
  | .str s => getObjectByName st s
  | .num i => getObjectById st i
  | .node n => some n

/-- The `objects.forEach` loop of `dump` (index.js 141-149): each entry is
resolved, its console label is computed by `_getObjectDisplayName` — which
throws on a `null` lookup result, aborting the whole dump — and the entry's
report is appended.  On a fault the model reports only the fault (the
console output already emitted before the throw is not retained). -/
def dumpEntries (cid : Int) (st : DNode) :
    List FilterEntry → Except JsFault (List ConsoleEntry)
  | [] => .ok []
  | f :: rest =>
      match getObjectDisplayName (resolveDumpEntry st f) with
      | .error e => .error e
      | .ok label =>
          match resolveDumpEntry st f with
          | some o =>
              match dumpEntries cid st rest with
              | .error e => .error e
              | .ok tail => .ok (dumpObject cid o label true ++ tail)
          | none => .error JsFault.typeError

/-- Embedding of `dump` (index.js 138-158) with a stage configured (the constructor
always binds one, so the `No stage or objects` branch of line 156 is out of
scope).  With a filter array, one expanded report per entry inside a
`Display objects` group; without one, a single expanded report rooted at
the stage. -/
def dump (cid : Int) (st : DNode) (objects : Option (List FilterEntry)) :
    Except JsFault (List ConsoleEntry) :=
  match objects with
  | some objs =>
      match dumpEntries cid st objs with
      | .error e => .error e
      | .ok body =>
          .ok (ConsoleEntry.group "Display objects" :: body ++ [ConsoleEntry.groupEnd])
  | none =>
      .ok (dumpObject cid st ("Stage (id=" ++ toString st.id ++ ")") true)

/-! ## Overlay lifecycle state (`hide`, index.js 123-131) -/

/-- The observable state `hide` operates on: the stage's child list
(as ids, the overlay container among them when showing), the overlay
container's id and contents, the `drawstart` subscription, and the
`updateOnDraw` flag. -/
structure InspectorState where
  stageChildren : List Int
  containerId : Int
  containerChildren : List Annot
  drawListener : Bool
  updateOnDraw : Bool
  deriving DecidableEq, Repr

/-- Embedding of `hide` (index.js 123-131): the container always exists (it is created
in the constructor), so the body always runs: when `updateOnDraw` is set,
remove the `drawstart` listener (removing an absent listener is a no-op);
empty the container; remove the container from the stage's children
(CreateJS `removeChild` removes the single occurrence, if present). -/
def hide (s : InspectorState) : InspectorState :=
  { s with
    drawListener := if s.updateOnDraw then false else s.drawListener
    containerChildren := []
    stageChildren := s.stageChildren.erase s.containerId }

/-! ## Concrete fixtures used by witnesses and counterexamples -/

/-- The constructor's default `propFilters` (index.js 22-34): `bounds`,
`pos`, `regPos`, `width`, `height`, `name`, `id`, `x`, `y`, `scaleX`,
`scaleY` enabled, everything else (including `parentId`) unset and
therefore falsy. -/
def defaultPropFilters : String → Bool := fun k =>
  k == "bounds" || k == "pos" || k == "regPos" || k == "width" || k == "height"
    || k == "name" || k == "id" || k == "x" || k == "y" || k == "scaleX"
    || k == "scaleY"

/-- A property filter set with only `bounds` enabled. -/
def propsBoundsOnly : String → Bool := fun k => k == "bounds"

/-- A leaf child with defined bounds, named `"kid"`, id 2. -/
def fxKid : DNode :=
  DNode.mk 2 (some "kid") (.ret (some ⟨0, 0, 5, 5⟩)) none none [] none

/-- A stage (id 1) whose only child is `fxKid`; no node has id 42. -/
def fxStage : DNode :=
  DNode.mk 1 none (.ret none) none none [] (some [fxKid])

/-- An overlay container node (id 99), as `_container` appears in the
stage's child list while showing. -/
def fxContainer : DNode :=
  DNode.mk 99 (some "si_ui_container") (.ret none) none none [] (some [])

/-- A stage whose children are a normal child and the overlay container. -/
def fxStageWithContainer : DNode :=
  DNode.mk 1 none (.ret none) none none [] (some [fxKid, fxContainer])

/-- A bounded leaf child (id 11). -/
def fxBoundedChild : DNode :=
  DNode.mk 11 none (.ret (some ⟨0, 0, 5, 5⟩)) none none [] none

/-- A group whose own `getBounds()` throws, with one bounded child. -/
def fxBoundlessParent : DNode :=
  DNode.mk 10 none .fault none none [] (some [fxBoundedChild])

/-- A node (id 7) carrying an own enumerable numeric field named `width`. -/
def fxWidthFieldNode : DNode :=
  DNode.mk 7 (some "w") (.ret (some ⟨0, 0, 5, 5⟩)) none none
    [("width", .num 5)] none

/-- A bounded parent (id 1) with one bounded child (id 2). -/
def fxBoundedParent : DNode :=
  DNode.mk 1 none (.ret (some ⟨0, 0, 20, 20⟩)) none none []
    (some [DNode.mk 2 none (.ret (some ⟨0, 0, 10, 10⟩)) none none [] none])

/-! ## Foundation lemmas -/

theorem DNode.sizeOf_lt_of_mem_childrenList {c n : DNode}
    (h : c ∈ n.childrenList) : sizeOf c < sizeOf n := by
  obtain ⟨i, nm, bf, fb, cf, fl, ch⟩ := n
  cases ch with
  | none => simp [DNode.childrenList, DNode.children] at h
  | some cs =>
    simp only [DNode.childrenList, DNode.children, Option.getD_some] at h
    have := List.sizeOf_lt_of_mem h
    simp only [DNode.mk.sizeOf_spec, Option.some.sizeOf_spec]
    omega

/-- Strong induction over the stage tree: to prove `P` of a node it
suffices to prove it assuming `P` of all its children. -/
theorem DNode.strongInd {P : DNode → Prop}
    (ih : ∀ n, (∀ c ∈ n.childrenList, P c) → P n) : ∀ n, P n := by
  intro n
  apply ih
  intro c hc
  have := DNode.sizeOf_lt_of_mem_childrenList hc
  exact DNode.strongInd ih c
termination_by n => sizeOf n

theorem flatMap_attach_eq {α β : Type} (l : List α) (g : α → List β) :
    l.attach.flatMap (fun x => g x.1) = l.flatMap g := by
  induction l with
  | nil => rfl
  | cons a as ih => simp [List.attach_cons, List.flatMap_cons, List.flatMap_map, ih]

theorem findSome_attach_eq {α β : Type} (l : List α) (g : α → Option β) :
    l.attach.findSome? (fun x => g x.1) = l.findSome? g := by
  induction l with
  | nil => rfl
  | cons a as ih =>
    simp only [List.attach_cons, List.findSome?_cons, List.findSome?_map]
    cases g a with
    | some b => rfl
    | none => simp [Function.comp_def, ih]

theorem searchForObject_eq (f : DNode → Bool) (n : DNode) :
    searchForObject f n =
      if f n then some n else n.childrenList.findSome? (searchForObject f) := by
  rw [searchForObject, findSome_attach_eq]

theorem searchForObjects_eq (f : DNode → Bool) (n : DNode) :
    searchForObjects f n =
      if f n then [n] else n.childrenList.flatMap (searchForObjects f) := by
  rw [searchForObjects, flatMap_attach_eq]

theorem preorder_eq (n : DNode) :
    preorder n = n :: n.childrenList.flatMap preorder := by
  rw [preorder, flatMap_attach_eq]

theorem addObjectToContainer_eq (props : String → Bool)
    (filters : Option (List FilterEntry)) (parentId : Int) (n : DNode)
    (nestLevel : Nat) :
    addObjectToContainer props filters parentId n nestLevel =
      n.childrenList.flatMap
        (fun c => addObjectToContainer props filters n.id c (nestLevel + 1))
      ++ selfAnnots props filters parentId n := by
  rw [addObjectToContainer,
    flatMap_attach_eq n.childrenList
      (fun c => addObjectToContainer props filters n.id c (nestLevel + 1))]

theorem dumpObject_eq (cid : Int) (o : DNode) (label : String) (expand : Bool) :
    dumpObject cid o label expand =
      if o.id == cid then []
      else
        (if expand then [ConsoleEntry.group label]
         else [ConsoleEntry.groupCollapsed label])
        ++ [ConsoleEntry.logRef o.id]
        ++ dumpFieldLines o
        ++ (if o.children.isSome then
              ConsoleEntry.group "Children:"
                :: o.childrenList.flatMap (fun c => dumpObject cid c (objLabel c) false)
                ++ [ConsoleEntry.groupEnd]
            else [ConsoleEntry.logLine "Children: None"])
        ++ [ConsoleEntry.groupEnd] := by
  rw [dumpObject,
    flatMap_attach_eq o.childrenList (fun c => dumpObject cid c (objLabel c) false)]

theorem findSome?_congr {α β : Type} {l : List α} {g h : α → Option β}
    (H : ∀ a ∈ l, g a = h a) : l.findSome? g = l.findSome? h := by
  induction l with
  | nil => rfl
  | cons a as ih =>
    rw [List.findSome?_cons, List.findSome?_cons, H a (by simp)]
    cases h a with
    | some b => rfl
    | none => exact ih (fun a ha => H a (by simp [ha]))

theorem find?_flatMap {α β : Type} (l : List α) (g : α → List β) (p : β → Bool) :
    (l.flatMap g).find? p = l.findSome? (fun a => (g a).find? p) := by
  induction l with
  | nil => rfl
  | cons a as ih =>
    rw [List.flatMap_cons, List.find?_append, List.findSome?_cons]
    cases (g a).find? p with
    | some b => rfl
    | none => simp [ih]

/-- The function `_searchForObject` returns exactly the first node of the depth-first
pre-order enumeration satisfying the predicate. -/
theorem searchForObject_eq_find? (f : DNode → Bool) :
    ∀ t, searchForObject f t = (preorder t).find? f := by
  refine DNode.strongInd (fun n hih => ?_)
  rw [searchForObject_eq, preorder_eq]
  cases hf : f n with
  | true => simp [List.find?_cons, hf]
  | false =>
    rw [List.find?_cons, hf, find?_flatMap]
    exact findSome?_congr (fun c hc => hih c hc)

theorem occurs_iff_mem_preorder {x t : DNode} : Occurs x t ↔ x ∈ preorder t := by
  constructor
  · intro h
    induction h with
    | refl => rw [preorder_eq]; exact List.mem_cons_self _ _
    | child hc _ ih =>
      rw [preorder_eq]
      exact List.mem_cons_of_mem _ (List.mem_flatMap.mpr ⟨_, hc, ih⟩)
  · revert x
    induction t using DNode.strongInd with
    | _ n hih =>
      intro x hx
      rw [preorder_eq] at hx
      rcases List.mem_cons.mp hx with h | h
      · exact h ▸ Occurs.refl n
      · rcases List.mem_flatMap.mp h with ⟨c, hc, hxc⟩
        exact Occurs.child hc (hih c hc hxc)

theorem Occurs.trans {x y t : DNode} (hxy : Occurs x y) (hyt : Occurs y t) :
    Occurs x t := by
  induction hyt with
  | refl => exact hxy
  | child hc _ ih => exact Occurs.child hc ih

theorem treeIds_eq (n : DNode) :
    treeIds n = n.id :: n.childrenList.flatMap treeIds := by
  rw [treeIds, preorder_eq, List.map_cons, List.map_flatMap]
  rfl

theorem occurs_id_mem_treeIds {x t : DNode} (h : Occurs x t) :
    x.id ∈ treeIds t :=
  List.mem_map_of_mem DNode.id (occurs_iff_mem_preorder.mp h)

theorem treeNames_eq (n : DNode) :
    treeNames n = n.name :: n.childrenList.flatMap treeNames := by
  rw [treeNames, preorder_eq, List.map_cons, List.map_flatMap]
  rfl

theorem flatMap_sublist_flatMap {α β : Type} {l : List α} {g h : α → List β}
    (H : ∀ a ∈ l, (g a).Sublist (h a)) :
    (l.flatMap g).Sublist (l.flatMap h) := by
  induction l with
  | nil => simp
  | cons a as ih =>
    rw [List.flatMap_cons, List.flatMap_cons]
    exact (H a (by simp)).append (ih fun a ha => H a (by simp [ha]))

theorem searchForObjects_sound (f : DNode → Bool) :
    ∀ t, ∀ x ∈ searchForObjects f t, f x = true := by
  refine DNode.strongInd (fun n hih => ?_)
  intro x hx
  rw [searchForObjects_eq] at hx
  by_cases hf : f n = true
  · rw [if_pos hf] at hx
    simpa using List.mem_singleton.mp hx ▸ hf
  · rw [if_neg hf] at hx
    obtain ⟨c, hc, hxc⟩ := List.mem_flatMap.mp hx
    exact hih c hc x hxc

theorem searchForObjects_sublist_preorder (f : DNode → Bool) :
    ∀ t, (searchForObjects f t).Sublist (preorder t) := by
  refine DNode.strongInd (fun n hih => ?_)
  rw [searchForObjects_eq, preorder_eq]
  by_cases hf : f n = true
  · rw [if_pos hf]
    exact (List.nil_sublist _).cons₂ n
  · rw [if_neg hf]
    exact (flatMap_sublist_flatMap hih).cons _

theorem mem_searchForObjects_occurs {f : DNode → Bool} {t x : DNode}
    (h : x ∈ searchForObjects f t) : Occurs x t :=
  occurs_iff_mem_preorder.mpr ((searchForObjects_sublist_preorder f t).mem h)

theorem searchForObjects_covers (f : DNode → Bool) :
    ∀ t x, Occurs x t → f x = true →
      ∃ y, y ∈ searchForObjects f t ∧ Occurs x y := by
  refine DNode.strongInd (fun n hih => ?_)
  intro x hocc hfx
  by_cases hf : f n = true
  · exact ⟨n, by rw [searchForObjects_eq, if_pos hf]; simp, hocc⟩
  · cases hocc with
    | refl => exact absurd hfx hf
    | child hc hxc =>
      obtain ⟨y, hy, hxy⟩ := hih _ hc x hxc hfx
      refine ⟨y, ?_, hxy⟩
      rw [searchForObjects_eq, if_neg hf]
      exact List.mem_flatMap.mpr ⟨_, hc, hy⟩

theorem treeIds_nodup_parts {t : DNode} (h : (treeIds t).Nodup) :
    t.id ∉ t.childrenList.flatMap treeIds
    ∧ (∀ c ∈ t.childrenList, (treeIds c).Nodup)
    ∧ t.childrenList.Pairwise (fun a b => (treeIds a).Disjoint (treeIds b)) := by
  rw [treeIds_eq, List.nodup_cons] at h
  obtain ⟨hnot, hflat⟩ := h
  rw [List.flatMap_def, List.nodup_flatten] at hflat
  obtain ⟨hall, hpw⟩ := hflat
  exact ⟨hnot, fun c hc => hall _ (List.mem_map_of_mem _ hc),
    List.pairwise_map.mp hpw⟩

theorem searchForObjects_antichain (f : DNode → Bool) :
    ∀ t, (treeIds t).Nodup →
      ∀ x y, x ∈ searchForObjects f t → y ∈ searchForObjects f t →
        Occurs x y → x = y := by
  refine DNode.strongInd (fun n hih => ?_)
  intro hnd x y hx hy hxy
  by_cases hf : f n = true
  · rw [searchForObjects_eq, if_pos hf] at hx hy
    rw [List.mem_singleton.mp hx, List.mem_singleton.mp hy]
  · rw [searchForObjects_eq, if_neg hf] at hx hy
    obtain ⟨c1, hc1, hx1⟩ := List.mem_flatMap.mp hx
    obtain ⟨c2, hc2, hy2⟩ := List.mem_flatMap.mp hy
    obtain ⟨-, hall, hpw⟩ := treeIds_nodup_parts hnd
    have hxid1 : x.id ∈ treeIds c1 :=
      occurs_id_mem_treeIds (mem_searchForObjects_occurs hx1)
    have hxid2 : x.id ∈ treeIds c2 :=
      occurs_id_mem_treeIds (hxy.trans (mem_searchForObjects_occurs hy2))
    have hcc : c1 = c2 := by
      by_contra hne
      have hsymm : Symmetric (fun a b : DNode => (treeIds a).Disjoint (treeIds b)) :=
        fun a b hab => hab.symm
      exact hpw.forall hsymm hc1 hc2 hne hxid1 hxid2
    subst hcc
    exact hih c1 hc1 (hall c1 hc1) x y hx1 hy2 hxy

theorem mem_ite_nil_iff {α : Type} {p : Prop} [Decidable p] {l : List α} {a : α} :
    (a ∈ if p then l else []) ↔ p ∧ a ∈ l := by
  split <;> simp_all

theorem ownAnnots_owner {props : String → Bool} {parentId : Int} {n : DNode} :
    ∀ a ∈ ownAnnots props parentId n, a.owner = n.id := by
  intro a ha
  cases a <;> simp_all [ownAnnots, mem_ite_nil_iff, Annot.owner]

theorem selfAnnots_owner {props : String → Bool}
    {filters : Option (List FilterEntry)} {parentId : Int} {n : DNode} :
    ∀ a ∈ selfAnnots props filters parentId n, a.owner = n.id := by
  intro a ha
  rw [selfAnnots] at ha
  split at ha
  · split at ha
    · exact ownAnnots_owner a ha
    · simp at ha
  · simp at ha

/-- Every primitive emitted by the overlay builder for a subtree belongs to
some node of that subtree. -/
theorem addObject_owner_mem (props : String → Bool)
    (filters : Option (List FilterEntry)) :
    ∀ n, ∀ parentId nestLevel, ∀ a ∈ addObjectToContainer props filters parentId n nestLevel,
      a.owner ∈ treeIds n := by
  refine DNode.strongInd (fun n hih => ?_)
  intro parentId nestLevel a ha
  rw [addObjectToContainer_eq] at ha
  rcases List.mem_append.mp ha with h | h
  · obtain ⟨c, hc, hac⟩ := List.mem_flatMap.mp h
    have := hih c hc n.id (nestLevel + 1) a hac
    rw [treeIds_eq]
    exact List.mem_cons_of_mem _ (List.mem_flatMap.mpr ⟨c, hc, this⟩)
  · rw [treeIds_eq, selfAnnots_owner a h]
    exact List.mem_cons_self _ _

/-- An included node with defined bounds has all its own annotations in
the overlay built from it. -/
theorem ownAnnots_sub_build (props : String → Bool)
    (filters : Option (List FilterEntry)) (parentId : Int) (nestLevel : Nat)
    (n : DNode) (hinc : includeNode filters n = true)
    (hb : resolveBounds n ≠ none) :
    ∀ a ∈ ownAnnots props parentId n,
      a ∈ addObjectToContainer props filters parentId n nestLevel := by
  intro a ha
  rw [addObjectToContainer_eq]
  refine List.mem_append.mpr (Or.inr ?_)
  rw [selfAnnots, if_pos hinc]
  cases hrb : resolveBounds n with
  | none => exact absurd hrb hb
  | some b => exact ha

/-- Annotations of an included, bounded strict descendant (a child of some
node `p` inside the subtree of `n`) appear in the overlay built from `n`;
the parent id passed to the descendant's synthesis is `p.id`. -/
theorem descendant_annots_in_build (props : String → Bool)
    (filters : Option (List FilterEntry)) {p n : DNode} (hocc : Occurs p n) :
    ∀ parentId nestLevel x, x ∈ p.childrenList → includeNode filters x = true →
      resolveBounds x ≠ none →
      ∀ a ∈ ownAnnots props p.id x,
        a ∈ addObjectToContainer props filters parentId n nestLevel := by
  induction hocc with
  | refl =>
    intro parentId nestLevel x hx hinc hb a ha
    rw [addObjectToContainer_eq]
    refine List.mem_append.mpr (Or.inl (List.mem_flatMap.mpr ⟨x, hx, ?_⟩))
    exact ownAnnots_sub_build props filters p.id (nestLevel + 1) x hinc hb a ha
  | child hc ho ih =>
    rename_i c t
    intro parentId nestLevel x hx hinc hb a ha
    rw [addObjectToContainer_eq]
    refine List.mem_append.mpr (Or.inl (List.mem_flatMap.mpr ⟨c, hc, ?_⟩))
    exact ih t.id (nestLevel + 1) x hx hinc hb a ha

/-! ## Claim C3 — partial-bounds policy -/

/-- C3: a node whose bounds resolution yields nothing (an undefined/null
`getBounds` result or a suppressed fault) contributes no annotation of its
own — the whole overlay built from it consists exactly of its children's
overlays — while every included, bounded node below it (any child of any
node `p` of the subtree) still contributes all of its annotations. -/
theorem C3_partial_bounds (props : String → Bool)
    (filters : Option (List FilterEntry)) (parentId : Int) (n : DNode)
    (nestLevel : Nat) (h : resolveBounds n = none) :
    addObjectToContainer props filters parentId n nestLevel
      = n.childrenList.flatMap
          (fun c => addObjectToContainer props filters n.id c (nestLevel + 1))
    ∧ (∀ p x, Occurs p n → x ∈ p.childrenList → includeNode filters x = true →
        resolveBounds x ≠ none →
        ∀ a ∈ ownAnnots props p.id x,
          a ∈ addObjectToContainer props filters parentId n nestLevel) := by
  constructor
  · rw [addObjectToContainer_eq, selfAnnots, h]
    split <;> simp
  · intro p x hocc hx hinc hb a ha
    exact descendant_annots_in_build props filters hocc parentId nestLevel x hx hinc hb a ha

/-- Concrete evaluation: the overlay of a bounds-throwing group contains
exactly its bounded child's annotations. -/
theorem addObject_boundless_parent_eval :
    addObjectToContainer propsBoundsOnly none 0 fxBoundlessParent 0
      = [Annot.boundsRect 11, Annot.boundsPosText 11] := by
  rw [addObjectToContainer_eq]
  rw [show fxBoundlessParent.childrenList = [fxBoundedChild] from rfl]
  rw [List.flatMap_cons, List.flatMap_nil, addObjectToContainer_eq]
  rw [show fxBoundedChild.childrenList = [] from rfl, List.flatMap_nil]
  simp [selfAnnots, includeNode, resolveBounds, tryGetBounds, fxBoundlessParent,
    fxBoundedChild, DNode.boundsF, DNode.frameBounds, DNode.currentFrame,
    ownAnnots, propsBoundsOnly, infoLines, DNode.fields, DNode.id]

/-- Witness for C3 at the bounds-throwing group. -/
theorem C3_witness :
    resolveBounds fxBoundlessParent = none
    ∧ (addObjectToContainer propsBoundsOnly none 0 fxBoundlessParent 0
        = fxBoundlessParent.childrenList.flatMap
            (fun c => addObjectToContainer propsBoundsOnly none fxBoundlessParent.id c 1)
      ∧ (∀ p x, Occurs p fxBoundlessParent → x ∈ p.childrenList →
          includeNode none x = true → resolveBounds x ≠ none →
          ∀ a ∈ ownAnnots propsBoundsOnly p.id x,
            a ∈ addObjectToContainer propsBoundsOnly none 0 fxBoundlessParent 0)) :=
  ⟨rfl, C3_partial_bounds propsBoundsOnly none 0 fxBoundlessParent 0 rfl⟩

/-! ## Claim C8 — children render behind their parent -/

/-- C8: the overlay build appends all primitives produced inside a child's
subtree before any primitive of the parent itself; in particular, for a
parent-child pair with distinct node identities, any primitive owned by the
child sits at a strictly smaller overlay index than any primitive owned by
the parent, so parent annotations render in front. -/
theorem C8_children_before_parent (props : String → Bool)
    (filters : Option (List FilterEntry)) (parentId : Int) (nestLevel : Nat)
    {n c : DNode} (hc : c ∈ n.childrenList) (hnd : (treeIds n).Nodup) :
    ∀ (i j : Nat) (a b : Annot),
      (addObjectToContainer props filters parentId n nestLevel)[i]? = some a →
      a.owner = c.id →
      (addObjectToContainer props filters parentId n nestLevel)[j]? = some b →
      b.owner = n.id → i < j := by
  intro i j a b hia hao hjb hbo
  obtain ⟨hnotin, -, -⟩ := treeIds_nodup_parts hnd
  have hcid : c.id ∈ n.childrenList.flatMap treeIds :=
    List.mem_flatMap.mpr ⟨c, hc, by rw [treeIds_eq]; exact List.mem_cons_self _ _⟩
  have hne : c.id ≠ n.id := fun he => hnotin (he ▸ hcid)
  rw [addObjectToContainer_eq] at hia hjb
  have hi : i < (n.childrenList.flatMap
      (fun c => addObjectToContainer props filters n.id c (nestLevel + 1))).length := by
    by_contra hge
    push_neg at hge
    rw [List.getElem?_append_right hge] at hia
    have hown := selfAnnots_owner a (List.getElem?_mem hia)
    exact hne (by rw [← hao, hown])
  have hj : (n.childrenList.flatMap
      (fun c => addObjectToContainer props filters n.id c (nestLevel + 1))).length ≤ j := by
    by_contra hlt
    push_neg at hlt
    rw [List.getElem?_append_left hlt] at hjb
    obtain ⟨c2, hc2, hbc2⟩ := List.mem_flatMap.mp (List.getElem?_mem hjb)
    have hown := addObject_owner_mem props filters c2 n.id (nestLevel + 1) b hbc2
    exact hnotin (by rw [← hbo]; exact List.mem_flatMap.mpr ⟨c2, hc2, hown⟩)
  omega

/-- Concrete evaluation: with only `bounds` enabled, the overlay of a
bounded parent with one bounded child lists the child's two primitives
before the parent's two. -/
theorem addObject_bounded_parent_eval :
    addObjectToContainer propsBoundsOnly none 0 fxBoundedParent 0
      = [Annot.boundsRect 2, Annot.boundsPosText 2,
         Annot.boundsRect 1, Annot.boundsPosText 1] := by
  rw [addObjectToContainer_eq]
  rw [show fxBoundedParent.childrenList
        = [DNode.mk 2 none (.ret (some ⟨0, 0, 10, 10⟩)) none none [] none] from rfl]
  rw [List.flatMap_cons, List.flatMap_nil, addObjectToContainer_eq]
  rw [show (DNode.mk 2 none (GetBoundsResult.ret (some ⟨0, 0, 10, 10⟩))
        none none [] none).childrenList = [] from rfl, List.flatMap_nil]
  simp [selfAnnots, includeNode, resolveBounds, tryGetBounds, fxBoundedParent,
    DNode.boundsF, DNode.frameBounds, DNode.currentFrame, ownAnnots,
    propsBoundsOnly, infoLines, DNode.fields, DNode.id]

/-- Concrete evaluation of the node ids of the C8 fixture. -/
theorem treeIds_fxBoundedParent : treeIds fxBoundedParent = [1, 2] := by
  simp [treeIds_eq, fxBoundedParent, DNode.childrenList, DNode.children, DNode.id]

/-- Witness for C8: the child's bounds rectangle (index 0) precedes the
parent's bounds rectangle (index 2). -/
theorem C8_witness :
    ((addObjectToContainer propsBoundsOnly none 0 fxBoundedParent 0)[0]?
        = some (Annot.boundsRect 2)
      ∧ (addObjectToContainer propsBoundsOnly none 0 fxBoundedParent 0)[2]?
        = some (Annot.boundsRect 1)
      ∧ (treeIds fxBoundedParent).Nodup)
    ∧ (0 : Nat) < 2 :=
  ⟨⟨by rw [addObject_bounded_parent_eval]; decide,
    by rw [addObject_bounded_parent_eval]; decide,
    by rw [treeIds_fxBoundedParent]; decide⟩,
   C8_children_before_parent propsBoundsOnly none 0 0
    (show DNode.mk 2 none (.ret (some ⟨0, 0, 10, 10⟩)) none none [] none
        ∈ fxBoundedParent.childrenList by
      simp [fxBoundedParent, DNode.childrenList, DNode.children])
    (by rw [treeIds_fxBoundedParent]; decide)
    0 2 (Annot.boundsRect 2) (Annot.boundsRect 1)
    (show (addObjectToContainer propsBoundsOnly none 0 fxBoundedParent 0)[0]?
        = some (Annot.boundsRect 2) by rw [addObject_bounded_parent_eval]; decide)
    rfl
    (show (addObjectToContainer propsBoundsOnly none 0 fxBoundedParent 0)[2]?
        = some (Annot.boundsRect 1) by rw [addObject_bounded_parent_eval]; decide)
    rfl⟩

/-! ## Claim C2 — the overlay layer never annotates or reports itself -/

theorem logRef_notin_dumpObject (cid : Int) :
    ∀ o, ∀ label expand, ConsoleEntry.logRef cid ∉ dumpObject cid o label expand := by
  refine DNode.strongInd (fun n hih => ?_)
  intro label expand hmem
  rw [dumpObject_eq] at hmem
  by_cases hid : (n.id == cid) = true
  · rw [if_pos hid] at hmem
    simp at hmem
  · rw [if_neg hid] at hmem
    have hne : n.id ≠ cid := by simpa using hid
    split_ifs at hmem <;>
      simp only [dumpFieldLines, List.mem_append, List.mem_cons, List.mem_singleton,
        List.not_mem_nil, List.mem_flatMap, or_false, false_or, reduceCtorEq,
        ConsoleEntry.logRef.injEq] at hmem <;>
      first
        | (rcases hmem with h | ⟨c, hc, hcm⟩
           · exact hne h.symm
           · exact hih c hc (objLabel c) false hcm)
        | exact hne hmem.symm

/-- C2: when the overlay container sits in the stage's child list (and its
id appears nowhere else in the tree, as CreateJS ids are unique), the
rebuilt overlay contains no annotation owned by the container — the rebuild
skips it by identity — and a console dump rooted at the stage emits no
report (no `ref:` log) for the container at any depth. -/
theorem C2_overlay_self_exclusion (props : String → Bool)
    (filters : Option (List FilterEntry)) (cid : Int) (st : DNode)
    (_hpresent : ∃ c ∈ st.childrenList, c.id = cid)
    (hfresh : ∀ c ∈ st.childrenList, c.id ≠ cid → cid ∉ treeIds c) :
    (∀ a ∈ updateDisplay props filters cid st, a.owner ≠ cid)
    ∧ (∀ es, dump cid st none = .ok es → ConsoleEntry.logRef cid ∉ es) := by
  constructor
  · intro a ha
    rw [updateDisplay] at ha
    obtain ⟨c, hc, hac⟩ := List.mem_flatMap.mp ha
    by_cases hcid : (c.id == cid) = true
    · rw [if_pos hcid] at hac
      simp at hac
    · rw [if_neg hcid] at hac
      have hown : a.owner ∈ treeIds c := addObject_owner_mem props filters c st.id 0 a hac
      intro heq
      exact hfresh c hc (by simpa using hcid) (heq ▸ hown)
  · intro es hes
    simp only [dump] at hes
    cases hes
    exact logRef_notin_dumpObject cid st _ true

/-- Witness for C2 at a stage holding a normal child and the container. -/
theorem C2_witness :
    ((∃ c ∈ fxStageWithContainer.childrenList, c.id = 99)
      ∧ (∀ c ∈ fxStageWithContainer.childrenList, c.id ≠ 99 → 99 ∉ treeIds c))
    ∧ ((∀ a ∈ updateDisplay defaultPropFilters none 99 fxStageWithContainer,
          a.owner ≠ 99)
      ∧ (∀ es, dump 99 fxStageWithContainer none = .ok es →
          ConsoleEntry.logRef 99 ∉ es)) :=
  ⟨⟨⟨fxContainer,
      by simp [fxStageWithContainer, DNode.childrenList, DNode.children], rfl⟩,
    by
      intro c hcm hne
      simp only [fxStageWithContainer, DNode.childrenList, DNode.children,
        Option.getD_some, List.mem_cons, List.not_mem_nil, or_false] at hcm
      rcases hcm with rfl | rfl
      · rw [show treeIds fxKid = [2] from by
          simp [treeIds_eq, fxKid, DNode.childrenList, DNode.children, DNode.id]]
        decide
      · exact absurd rfl hne⟩,
   C2_overlay_self_exclusion defaultPropFilters none 99 fxStageWithContainer
    ⟨fxContainer,
      by simp [fxStageWithContainer, DNode.childrenList, DNode.children], rfl⟩
    (by
      intro c hcm hne
      simp only [fxStageWithContainer, DNode.childrenList, DNode.children,
        Option.getD_some, List.mem_cons, List.not_mem_nil, or_false] at hcm
      rcases hcm with rfl | rfl
      · rw [show treeIds fxKid = [2] from by
          simp [treeIds_eq, fxKid, DNode.childrenList, DNode.children, DNode.id]]
        decide
      · exact absurd rfl hne)⟩

/-! ## Claim C7 — info-panel key handling and ordering -/

/-- Counterexample to C7 as stated: the generic field loop excludes only
`specialKeys = ['id', 'name']`, so a node carrying an own enumerable
numeric field named `width` — a structural property-filter key, enabled by
default — does get a `width: 5` line inside its info panel. -/
theorem C7_counterexample :
    "width: 5" ∈ infoLines defaultPropFilters 1 fxWidthFieldNode
    ∧ Annot.infoPanel 7 ["id: 7", "name: w", "width: 5"]
        ∈ addObjectToContainer defaultPropFilters none 1 fxWidthFieldNode 0 := by
  constructor
  · decide
  · rw [addObjectToContainer_eq,
      show fxWidthFieldNode.childrenList = [] from rfl, List.flatMap_nil,
      List.nil_append]
    decide

/-- C7 amended: only `id` and `name` are excluded from the generic field
loop (a structural key produces a panel line whenever the node has an own
non-underscore, non-object field of that name and the key is enabled);
when enabled, `id` is always the first panel line and `name` the second
(the first when `id` is disabled), ahead of `parentId` and every remaining
key, and every panel line is the `id` line, the `name` line, the
`Parent ID` line, or derived from one of the node's own fields. -/
theorem C7_amended_info_panel_order (props : String → Bool) (parentId : Int)
    (n : DNode) :
    (props "id" = true →
      (infoLines props parentId n).head? = some (displayMemberLine n "id"))
    ∧ (props "id" = true → props "name" = true →
      (infoLines props parentId n)[1]? = some (displayMemberLine n "name"))
    ∧ (props "id" = false → props "name" = true →
      (infoLines props parentId n).head? = some (displayMemberLine n "name"))
    ∧ (∀ l ∈ infoLines props parentId n,
        l = displayMemberLine n "id" ∨ l = displayMemberLine n "name"
          ∨ l = "Parent ID: " ++ toString parentId
          ∨ ∃ kv ∈ n.fields, l = displayMemberLine n kv.1) := by
  refine ⟨?_, ?_, ?_, ?_⟩
  · intro h
    simp [infoLines, h]
  · intro h1 h2
    simp [infoLines, h1, h2]
  · intro h1 h2
    simp [infoLines, h1, h2]
  · intro l hl
    simp only [infoLines, List.mem_append] at hl
    rcases hl with ((hl | hl) | hl) | hl
    · split at hl <;> simp_all
    · split at hl <;> simp_all
    · split at hl <;> simp_all
    · right; right; right
      obtain ⟨kv, hkv, he⟩ := List.mem_filterMap.mp hl
      refine ⟨kv, hkv, ?_⟩
      split at he
      · simp only [Option.some.injEq] at he
        exact he.symm
      · simp at he

/-- Witness for C7 (amended) at the `width`-field node. -/
theorem C7_witness :
    defaultPropFilters "id" = true
    ∧ (infoLines defaultPropFilters 1 fxWidthFieldNode).head?
        = some (displayMemberLine fxWidthFieldNode "id") :=
  ⟨by decide, (C7_amended_info_panel_order defaultPropFilters 1 fxWidthFieldNode).1
    (by decide)⟩

/-! ## Claim C1 — dump with unmatched filter entries -/

/-- Concrete evaluation of the node ids of the C1 fixture. -/
theorem treeIds_fxStage : treeIds fxStage = [1, 2] := by
  simp [treeIds_eq, fxStage, fxKid, DNode.childrenList, DNode.children, DNode.id]

/-- Concrete evaluation of the node names of the C1 fixture. -/
theorem treeNames_fxStage : treeNames fxStage = [none, some "kid"] := by
  simp [treeNames_eq, fxStage, fxKid, DNode.childrenList, DNode.children, DNode.name]

/-- Counterexample to C1 as stated: on a stage with ids 1 and 2 only,
`dump([42])` does not complete with a null-reference report — it raises a
`TypeError`, because `_getObjectDisplayName` calls `toString()` on the
`null` lookup result. -/
theorem C1_counterexample :
    dump 999 fxStage (some [FilterEntry.num 42]) = .error JsFault.typeError := by
  have hgid : getObjectById fxStage 42 = none := by
    simp [getObjectById, searchForObject_eq, fxStage, fxKid, DNode.childrenList,
      DNode.children, DNode.id]
  simp only [dump, dumpEntries, resolveDumpEntry, hgid, getObjectDisplayName]

/-- C1 amended: for a filter entry matching no node of the stage tree, the
lookup itself returns the absent-value marker without fault, but `dump`
raises a `TypeError` while computing the entry's console label from the
`null` lookup result (`obj.toString()` on `null`, index.js line 305)
instead of emitting a null-reference report — both for a numeric entry
whose id matches no node and for a string entry whose exact name matches no
node, unless the string lowercases to `"stage"`: then `getObjectByName`
short-circuits to the stage itself (index.js 205-206), so `dump` does not
fault and emits the stage's report instead. -/
theorem C1_amended_dump_unmatched_entry_faults (st : DNode) (cid i : Int)
    (s : String) (hid : i ∉ treeIds st) (hname : some s ∉ treeNames st) :
    (getObjectById st i = none
      ∧ dump cid st (some [FilterEntry.num i]) = .error JsFault.typeError)
    ∧ (jsToLowerCase s ≠ "stage" →
        getObjectByName st s = none
        ∧ dump cid st (some [FilterEntry.str s]) = .error JsFault.typeError)
    ∧ (jsToLowerCase s = "stage" →
        getObjectByName st s = some st
        ∧ dump cid st (some [FilterEntry.str s])
            = .ok (ConsoleEntry.group "Display objects"
                :: (dumpObject cid st (objLabel st) true ++ [])
                ++ [ConsoleEntry.groupEnd])) := by
  refine ⟨?_, ?_, ?_⟩
  · have hnone : getObjectById st i = none := by
      rw [getObjectById, searchForObject_eq_find?, List.find?_eq_none]
      intro x hx hbe
      have hxe : x.id = i := by simpa using hbe
      exact hid (hxe ▸ List.mem_map_of_mem DNode.id hx)
    refine ⟨hnone, ?_⟩
    simp only [dump, dumpEntries, resolveDumpEntry, hnone, getObjectDisplayName]
  · intro hs
    have hnone : getObjectByName st s = none := by
      rw [getObjectByName, if_neg (by simpa using hs),
        searchForObject_eq_find?, List.find?_eq_none]
      intro x hx hbe
      have hxe : x.name = some s := by simpa using hbe
      exact hname (hxe ▸ List.mem_map_of_mem DNode.name hx)
    refine ⟨hnone, ?_⟩
    simp only [dump, dumpEntries, resolveDumpEntry, hnone, getObjectDisplayName]
  · intro hs
    have hsome : getObjectByName st s = some st := by
      rw [getObjectByName, if_pos (by simp [hs])]
    refine ⟨hsome, ?_⟩
    simp only [dump, dumpEntries, resolveDumpEntry, hsome, getObjectDisplayName]

/-- Witness for C1 (amended) at the concrete stage with ids 1 and 2 and
names `none` and `"kid"`: the unmatched id 42 and the unmatched name
`"ghost"` both fault, while the unmatched name `"Stage"` resolves to the
stage itself and does not fault. -/
theorem C1_witness :
    ((42 : Int) ∉ treeIds fxStage
      ∧ (some "ghost" : Option String) ∉ treeNames fxStage
      ∧ (some "Stage" : Option String) ∉ treeNames fxStage
      ∧ jsToLowerCase "ghost" ≠ "stage"
      ∧ jsToLowerCase "Stage" = "stage")
    ∧ ((getObjectById fxStage 42 = none
        ∧ dump 999 fxStage (some [FilterEntry.num 42]) = .error JsFault.typeError)
      ∧ (getObjectByName fxStage "ghost" = none
        ∧ dump 999 fxStage (some [FilterEntry.str "ghost"]) = .error JsFault.typeError)
      ∧ (getObjectByName fxStage "Stage" = some fxStage
        ∧ dump 999 fxStage (some [FilterEntry.str "Stage"])
            = .ok (ConsoleEntry.group "Display objects"
                :: (dumpObject 999 fxStage (objLabel fxStage) true ++ [])
                ++ [ConsoleEntry.groupEnd]))) :=
  ⟨⟨by rw [treeIds_fxStage]; decide,
    by rw [treeNames_fxStage]; decide,
    by rw [treeNames_fxStage]; decide,
    by decide, by decide⟩,
   ⟨(C1_amended_dump_unmatched_entry_faults fxStage 999 42 "ghost"
      (by rw [treeIds_fxStage]; decide) (by rw [treeNames_fxStage]; decide)).1,
    (C1_amended_dump_unmatched_entry_faults fxStage 999 42 "ghost"
      (by rw [treeIds_fxStage]; decide) (by rw [treeNames_fxStage]; decide)).2.1
      (by decide),
    (C1_amended_dump_unmatched_entry_faults fxStage 999 42 "Stage"
      (by rw [treeIds_fxStage]; decide) (by rw [treeNames_fxStage]; decide)).2.2
      (by decide)⟩⟩

/-! ## Claim C9 — multi-match search -/

/-- C9: `_searchForObjects` returns only matches, listed as a
subsequence of the depth-first pre-order enumeration; a matching root is
returned alone (the search never descends into the children of a matching
node); every match in the tree is covered by some returned node above or
equal to it; and — when node identities are distinct — no returned node
lies inside another returned node, so at most one match is reported along
any root-to-leaf path. -/
theorem C9_searchForObjects (f : DNode → Bool) (t : DNode) :
    (∀ x ∈ searchForObjects f t, f x = true)
    ∧ (searchForObjects f t).Sublist (preorder t)
    ∧ (f t = true → searchForObjects f t = [t])
    ∧ (∀ x, Occurs x t → f x = true → ∃ y, y ∈ searchForObjects f t ∧ Occurs x y)
    ∧ ((treeIds t).Nodup →
        ∀ x y, x ∈ searchForObjects f t → y ∈ searchForObjects f t →
          Occurs x y → x = y) :=
  ⟨searchForObjects_sound f t,
   searchForObjects_sublist_preorder f t,
   fun hf => by rw [searchForObjects_eq, if_pos hf],
   searchForObjects_covers f t,
   searchForObjects_antichain f t⟩

/-- Witness for C9: a root that matches the predicate is returned alone. -/
theorem C9_witness :
    (fun n => DNode.id n == 1)
      (DNode.mk 1 none .fault none none []
        (some [DNode.mk 2 (some "a") .fault none none [] none])) = true
    ∧ searchForObjects (fun n => DNode.id n == 1)
        (DNode.mk 1 none .fault none none []
          (some [DNode.mk 2 (some "a") .fault none none [] none]))
      = [DNode.mk 1 none .fault none none []
          (some [DNode.mk 2 (some "a") .fault none none [] none])] :=
  ⟨rfl,
    (C9_searchForObjects (fun n => DNode.id n == 1)
      (DNode.mk 1 none .fault none none []
        (some [DNode.mk 2 (some "a") .fault none none [] none]))).2.2.1 rfl⟩

/-- Sanity check mirroring the spec's scenario B: a predicate matching two
siblings returns both, in depth-first pre-order. -/
theorem searchForObjects_two_siblings :
    searchForObjects (fun n => n.name == some "a")
      (DNode.mk 1 none .fault none none []
        (some [DNode.mk 2 (some "a") .fault none none [] none,
               DNode.mk 3 (some "a") .fault none none [] none]))
      = [DNode.mk 2 (some "a") .fault none none [] none,
         DNode.mk 3 (some "a") .fault none none [] none] := by
  simp [searchForObjects_eq, DNode.childrenList, DNode.children, DNode.name]

/-! ## Claim C4 — filter matching semantics -/

/-- C4: when the filter specification is absent the node is included
unconditionally; with a filter array, a node matches iff some entry is a
number equal to its id, a string equal (exact, case-sensitive) to its name,
or the node itself by identity; and evaluation short-circuits, since the
first matching entry alone already decides the result.  (The embedding is a
pure function, so freedom from side effects holds by construction.) -/
theorem C4_filter_matching (n : DNode) (fs : List FilterEntry) :
    includeNode none n = true
    ∧ (includeNode (some fs) n = true ↔ ∃ f ∈ fs, matchEntry n f = true)
    ∧ (∀ f rest, matchEntry n f = true → checkFilters (f :: rest) n = true) := by
  refine ⟨rfl, ?_, ?_⟩
  · show checkFilters fs n = true ↔ _
    induction fs with
    | nil => simp [checkFilters]
    | cons f rest ih =>
      rw [checkFilters]
      cases hf : matchEntry n f with
      | true => simp [hf]
      | false => simp [hf, ih]
  · intro f rest hf
    simp [checkFilters, hf]

/-- Witness for C4 at a concrete node and filter list. -/
theorem C4_witness :
    matchEntry (DNode.mk 5 none .fault none none [] none) (FilterEntry.num 5) = true
    ∧ checkFilters [FilterEntry.num 5] (DNode.mk 5 none .fault none none [] none) = true :=
  ⟨rfl, (C4_filter_matching (DNode.mk 5 none .fault none none [] none) []).2.2
    (FilterEntry.num 5) [] rfl⟩

/-! ## Claim C5 — nest color clamping -/

/-- C5: for a non-empty color table, the nest-color lookup returns
`table[d]` for a depth below the table length and `table[length-1]` (the
last entry) once the depth reaches or exceeds the length. -/
theorem C5_nest_color_clamped (colors : List String) (d : Nat) (h : colors ≠ []) :
    (∀ hd : d < colors.length, getNestColor colors d = some colors[d])
    ∧ (colors.length ≤ d → getNestColor colors d = some (colors.getLast h)) := by
  have hlen : 0 < colors.length := List.length_pos.mpr h
  constructor
  · intro hd
    rw [getNestColor, if_neg (by omega), jsIndex, if_neg (by omega)]
    simp [List.getElem?_eq_getElem, hd]
  · intro hle
    rw [getNestColor, if_pos (by omega), jsIndex, if_neg (by omega)]
    have ht : ((colors.length : Int) - 1).toNat = colors.length - 1 := by omega
    rw [ht, List.getLast_eq_getElem,
      List.getElem?_eq_getElem (by omega)]

/-- Witness for C5 at a concrete table and depth. -/
theorem C5_witness :
    (["red", "green"] : List String) ≠ []
    ∧ getNestColor ["red", "green"] 5 = some "green" := by
  refine ⟨by simp, ?_⟩
  have h := (C5_nest_color_clamped ["red", "green"] 5 (by simp)).2 (by simp)
  simpa using h

/-! ## Claim C6 — idempotence of hide -/

/-- C6: `hide` is idempotent: running it twice from any state reachable by
the class (the overlay container is a stage child at most once, and a
`drawstart` subscription only exists while `updateOnDraw` is set) is the
same as running it once, and after one `hide` the overlay container is
empty, detached from the stage, and unsubscribed from redraws. -/
theorem C6_hide_idempotent (s : InspectorState)
    (h1 : s.stageChildren.count s.containerId ≤ 1)
    (h2 : s.drawListener = true → s.updateOnDraw = true) :
    hide (hide s) = hide s
    ∧ (hide s).containerChildren = []
    ∧ s.containerId ∉ (hide s).stageChildren
    ∧ (hide s).drawListener = false := by
  have hnot : s.containerId ∉ (hide s).stageChildren := by
    show s.containerId ∉ s.stageChildren.erase s.containerId
    rw [← List.count_eq_zero, List.count_erase_self]
    omega
  refine ⟨?_, rfl, hnot, ?_⟩
  · obtain ⟨sc, cid, cc, dl, uod⟩ := s
    have hnot2 : cid ∉ sc.erase cid := hnot
    simp only [hide, List.erase_of_not_mem hnot2]
    cases uod <;> simp
  · show (if s.updateOnDraw then false else s.drawListener) = false
    cases huod : s.updateOnDraw with
    | true => simp
    | false =>
      cases hdl : s.drawListener with
      | true => exact absurd (h2 hdl) (by simp [huod])
      | false => simp [hdl]

/-- Witness for C6 at a concrete showing state. -/
theorem C6_witness :
    ((InspectorState.mk [7, 99] 99 [Annot.boundsRect 7] true true).stageChildren.count 99 ≤ 1
      ∧ ((InspectorState.mk [7, 99] 99 [Annot.boundsRect 7] true true).drawListener = true →
          (InspectorState.mk [7, 99] 99 [Annot.boundsRect 7] true true).updateOnDraw = true))
    ∧ (hide (hide (InspectorState.mk [7, 99] 99 [Annot.boundsRect 7] true true))
        = hide (InspectorState.mk [7, 99] 99 [Annot.boundsRect 7] true true)
      ∧ (hide (InspectorState.mk [7, 99] 99 [Annot.boundsRect 7] true true)).containerChildren = []
      ∧ (99 : Int) ∉ (hide (InspectorState.mk [7, 99] 99 [Annot.boundsRect 7] true true)).stageChildren
      ∧ (hide (InspectorState.mk [7, 99] 99 [Annot.boundsRect 7] true true)).drawListener = false) :=
  ⟨⟨by decide, by decide⟩,
    C6_hide_idempotent (InspectorState.mk [7, 99] 99 [Annot.boundsRect 7] true true)
      (by decide) (by decide)⟩

/-! ## Claim C10 — getObjectByName -/

/-- C10: a name whose lowercase form is `"stage"` returns the stage itself
without searching the tree — for every tree, hence even when a descendant
is named exactly `"stage"` or `"Stage"`; any other name returns the first
node of the depth-first pre-order enumeration whose `name` field equals the
argument exactly (`find?` returns `none` when there is no match). -/
theorem C10_getObjectByName (st : DNode) (s : String) :
    (jsToLowerCase s = "stage" → getObjectByName st s = some st)
    ∧ (jsToLowerCase s ≠ "stage" →
        getObjectByName st s = (preorder st).find? (fun o => o.name == some s)) := by
  constructor
  · intro h
    rw [getObjectByName, if_pos (by simp [h])]
  · intro h
    rw [getObjectByName, if_neg (by simpa using h), searchForObject_eq_find?]

/-- Witness for C10: a stage whose child is literally named `"stage"`; the
query `"STAGE"` nevertheless returns the stage node itself. -/
theorem C10_witness :
    jsToLowerCase "STAGE" = "stage"
    ∧ getObjectByName
        (DNode.mk 1 none .fault none none []
          (some [DNode.mk 2 (some "stage") .fault none none [] none]))
        "STAGE"
      = some (DNode.mk 1 none .fault none none []
          (some [DNode.mk 2 (some "stage") .fault none none [] none])) :=
  ⟨by decide,
    (C10_getObjectByName
      (DNode.mk 1 none .fault none none []
        (some [DNode.mk 2 (some "stage") .fault none none [] none])) "STAGE").1
      (by decide)⟩

end StageInspector
